import Mathlib

/-!
Shallow embedding of the convention-based route discovery engine
(`loadRoutesFromDirectory`, `determineRoutePath`, `loadRoutes` in the
route-loader plugin source file).

Modelling conventions:
* JS strings are modelled as Lean `String` (sequences of characters);
  `path.sep` is `'/'` (POSIX).
* `s.startsWith('[')` / `s.endsWith(']')` with a one-character argument are
  modelled as a test on the first / last character (`headIs` / `lastIs`),
  which is exactly equivalent for one-character arguments.
* `Array.prototype.filter(Boolean)` on strings removes exactly the empty
  strings.
* The filesystem visible to the walker is modelled as the inductive
  `FsTree` / `FsListing`: a directory node either yields its entries in the
  order `readdir` returns them, or is `dirUnavailable` (meaning `readdir`
  throws for that path).  A loaded module's default export is summarised by
  `ModuleContent`: a callable plugin, an invalid (missing / non-callable)
  export, or a module whose dynamic `import` throws.
* `fastify.register(plugin, prefixOpts)` is modelled as appending the
  computed route path to an ordered registry; the log calls are modelled as
  an ordered list of `LogEvent`s.  Exceptions are modelled with `Except`
  where the source can propagate them.
-/

/-- First character of a string is `c`; models JS `s.startsWith(c)` for a
one-character `c`. -/
def headIs (c : Char) (s : String) : Bool :=
  s.data.head? == some c

/-- Last character of a string is `c`; models JS `s.endsWith(c)` for a
one-character `c`. -/
def lastIs (c : Char) (s : String) : Bool :=
  s.data.getLast? == some c

/-- The source's dynamic-segment test:
`segment.startsWith('[') && segment.endsWith(']')`. -/
def isDynamicSeg (s : String) : Bool :=
  headIs '[' s && lastIs ']' s

/-- JS `segment.slice(1, -1)`: the text strictly between the first and the
last character. -/
def innerText (s : String) : String :=
  (s.drop 1).dropRight 1

/-- The per-segment map of `determineRoutePath`:
dynamic `[name]` becomes `:name`, `index` is elided to the empty string,
anything else is kept literally. -/
def transformSegment (segment : String) : String :=
  if isDynamicSeg segment then ":" ++ innerText segment
  else if segment == "index" then "" else segment

/-- The `.map(transformSegment).filter(Boolean)` stage of the pipeline. -/
def mappedSegments (segs : List String) : List String :=
  (segs.map transformSegment).filter (fun s => s != "")

/-- The `.join('/')` plus leading-slash stage of `determineRoutePath`,
applied to an already-split segment list. -/
def routePathOfSegs (segs : List String) : String :=
  let joined := String.intercalate "/" (mappedSegments segs)
  if headIs '/' joined then joined else "/" ++ joined

/-- Accumulator form of splitting a character list at `'/'`. -/
def splitSlashAux : List Char → List Char → List (List Char)
  | [], acc => [acc.reverse]
  | c :: r, acc =>
    if c == '/' then acc.reverse :: splitSlashAux r [] else splitSlashAux r (c :: acc)

/-- JS `relativePath.split(path.sep)` with POSIX separator: `""` yields
`[""]`, adjacent separators yield empty segments, a leading separator
yields a leading empty segment. -/
def splitSlash (s : String) : List String :=
  (splitSlashAux s.data []).map String.mk

/-- Route path of an already prefix- and extension-stripped relative path:
`split → map → filter(Boolean) → join('/') → ensure leading slash`. -/
def routePathOfRel (rel : String) : String :=
  routePathOfSegs (splitSlash rel)

/-- Length of the maximal run of decimal digits at the head of the list. -/
def digitRun : List Char → Nat
  | [] => 0
  | c :: r => if c.isDigit then digitRun r + 1 else 0

/-- If `cs` begins with an occurrence of the regex fragment
`\/routes\/v\d+\/` (the literal `/routes/v`, one or more digits, then `/`),
return the length of that occurrence. -/
def versionMarkLen (cs : List Char) : Option Nat :=
  if "/routes/v".data.isPrefixOf cs then
    let rest := cs.drop 9
    let k := digitRun rest
    if 0 < k ∧ rest.getD k ' ' == '/' then some (9 + k + 1) else none
  else none

/-- Occurrence of the version marker starting at position `p`. -/
def markAt (cs : List Char) (p : Nat) : Option Nat :=
  versionMarkLen (cs.drop p)

/-- Position of the first occurrence of the version marker, if any. -/
def firstMark (cs : List Char) : Option Nat :=
  (List.range cs.length).find? (fun p => (markAt cs p).isSome)

/-- Index just after the last newline strictly before position `p`
(0 when there is none): the earliest position the regex's leading `.*`
can start from and still reach `p`, since `.` does not match newlines. -/
def lineStartBefore (cs : List Char) (p : Nat) : Nat :=
  (List.range p).foldl (fun acc i => if cs.getD i ' ' == '\n' then i + 1 else acc) 0

/-- Last occurrence of the version marker reachable from position `s0`
without crossing a newline: what the greedy `.*` selects. -/
def lastMarkFrom (cs : List Char) (s0 : Nat) : Option Nat :=
  (List.range cs.length).foldl
    (fun acc p =>
      if s0 ≤ p ∧ (markAt cs p).isSome = true
          ∧ ((cs.drop s0).take (p - s0)).all (fun c => c != '\n') = true
      then some p else acc)
    none

/-- JS `filePath.replace(/.*\/routes\/v\d+\//, '')`: delete the first regex
match, which runs from the line start before the first marker occurrence up
to the end of the last marker occurrence reachable on that line (greedy
`.*` followed by the literal marker). -/
def stripRouteBase (s : String) : String :=
  match firstMark s.data with
  | none => s
  | some p0 =>
    let s0 := lineStartBefore s.data p0
    match lastMarkFrom s.data s0 with
    | none => s
    | some p =>
      match markAt s.data p with
      | none => s
      | some len => String.mk (s.data.take s0 ++ s.data.drop (p + len))

/-- JS `.replace(/\.(ts|js)$/, '')`. -/
def stripExt (s : String) : String :=
  if ".ts".data.isSuffixOf s.data ∨ ".js".data.isSuffixOf s.data then
    s.dropRight 3
  else s

/-- The source's `determineRoutePath(filePath, _basePath)`: strips the
`.*\/routes\/v\d+\//` base and the `.ts`/`.js` extension, then runs the
segment pipeline.  The second parameter is declared but never read in the
source (`_basePath`), which the embedding mirrors. -/
def determineRoutePath (filePath : String) (_basePath : String) : String :=
  routePathOfRel (stripExt (stripRouteBase filePath))

/-- Names of the dynamic (bracket-classified) segments, in left-to-right
order.  The source does not materialise this list; it is the spec's
`dynamicParamNames` metadata read off the source's own segment
classification (each `[name]` segment contributes its interior text, which
reappears as `:name` in the pattern). -/
def segmentParamNames : List String → List String
  | [] => []
  | seg :: rest =>
    if isDynamicSeg seg then innerText seg :: segmentParamNames rest
    else segmentParamNames rest

/-- Dynamic parameter names of a file path, after the same base- and
extension-stripping as `determineRoutePath`. -/
def dynamicParamNames (filePath : String) : List String :=
  segmentParamNames (splitSlash (stripExt (stripRouteBase filePath)))

/-- Shape of a route module's default export, as far as the loader
inspects it. -/
inductive ModuleContent : Type where
  | plugin
  | invalidExport
  | throwsOnLoad
deriving DecidableEq

mutual
/-- A filesystem node as the walker sees it. -/
inductive FsTree : Type where
  | file : ModuleContent → FsTree
  | dirUnavailable : FsTree
  | dirOf : FsListing → FsTree
/-- Directory entries in the order `readdir` returns them. -/
inductive FsListing : Type where
  | lnil : FsListing
  | lcons : String → FsTree → FsListing → FsListing
end

/-- A log record emitted by the loader. -/
inductive LogEvent : Type where
  | loaded : String → String → LogEvent
  | invalidExport : String → LogEvent
  | loadError : String → LogEvent
  | dirError : String → LogEvent
deriving DecidableEq

/-- Outcome of a discovery pass: ordered registered route paths and
ordered log events. -/
structure LoadResult : Type where
  registry : List String
  events : List LogEvent
deriving DecidableEq

/-- POSIX `path.join` for the shapes used by the loader. -/
def joinPath (a b : String) : String :=
  if a == "" then b else a ++ "/" ++ b

/-- Node `path.extname`: the suffix from the last `.` whose index is
positive (a leading dot alone marks a dotfile, not an extension). -/
def extnameOf (name : String) : String :=
  match (List.range name.data.length).foldl
      (fun acc i => if name.data.getD i ' ' == '.' ∧ 0 < i then some i else acc)
      none with
  | none => ""
  | some i => String.mk (name.data.drop i)

/-- The walker's candidate test:
`extname(entry.name) === '.ts' || extname(entry.name) === '.js'`. -/
def isCandidateName (name : String) : Bool :=
  extnameOf name == ".ts" || extnameOf name == ".js"

/-- The body of `loadRoutesFromDirectory`, one directory listing at a
time.  For each entry in `readdir` order: a subdirectory is recursed into
(`readdir` failure there is caught by the recursive call's own
`try`/`catch` and logged as a directory error); a candidate file is
dynamically imported, a callable default export is registered under
`determineRoutePath(fullPath, basePath)` and logged, a non-callable export
is logged as a warning, and an `import` exception is caught by the inner
`try`/`catch` and logged — in every case the walk continues with the next
entry. -/
def processEntries (dirPath basePath : String) : FsListing → LoadResult
  | .lnil => ⟨[], []⟩
  | .lcons name t rest =>
    let fullPath := joinPath dirPath name
    let here : LoadResult :=
      match t with
      | .file mod =>
        if isCandidateName name then
          match mod with
          | .plugin =>
            ⟨[determineRoutePath fullPath basePath],
             [.loaded (determineRoutePath fullPath basePath) fullPath]⟩
          | .invalidExport => ⟨[], [.invalidExport fullPath]⟩
          | .throwsOnLoad => ⟨[], [.loadError fullPath]⟩
        else ⟨[], []⟩
      | .dirUnavailable => ⟨[], [.dirError fullPath]⟩
      | .dirOf es => processEntries fullPath (joinPath basePath name) es
    let tail := processEntries dirPath basePath rest
    ⟨here.registry ++ tail.registry, here.events ++ tail.events⟩

/-- `loadRoutesFromDirectory(fastify, dirPath, basePath)`: the whole body
is wrapped in `try`/`catch`, so a `readdir` failure (or a file path where
a directory was expected) is logged as a directory error and the call
returns normally; it never throws. -/
def loadDir (dirPath basePath : String) : FsTree → LoadResult
  | .file _ => ⟨[], [.dirError dirPath]⟩
  | .dirUnavailable => ⟨[], [.dirError dirPath]⟩
  | .dirOf es => processEntries dirPath basePath es

/-- `join(process.cwd(), 'src', 'routes')`. -/
def routesDirPath (cwd : String) : String :=
  joinPath (joinPath cwd "src") "routes"

/-- The exported `loadRoutes` plugin, with `t` the filesystem node found
at `routesDir`.  Its `try`/`catch` would rethrow an error from
`loadRoutesFromDirectory`, but that call catches all of its own errors
internally and never throws, so `loadRoutes` always resolves normally;
`Except` records the (never-taken) propagation channel. -/
def loadRoutes (cwd : String) (t : FsTree) : Except String LoadResult :=
  Except.ok (loadDir (routesDirPath cwd) "" t)

/-- Candidate files (full path and module shape) in walk order, for a
directory listing at `dirPath`. -/
def candidatesL (dirPath : String) : FsListing → List (String × ModuleContent)
  | .lnil => []
  | .lcons name t rest =>
    (match t with
     | .file mod =>
       if isCandidateName name then [(joinPath dirPath name, mod)] else []
     | .dirUnavailable => []
     | .dirOf es => candidatesL (joinPath dirPath name) es)
    ++ candidatesL dirPath rest

/-- Candidate files in walk order for a filesystem node at `dirPath`. -/
def candidatesT (dirPath : String) : FsTree → List (String × ModuleContent)
  | .file _ => []
  | .dirUnavailable => []
  | .dirOf es => candidatesL dirPath es

/-- A flat directory listing built from a list of plain files. -/
def flatListing : List (String × ModuleContent) → FsListing
  | [] => .lnil
  | (n, m) :: r => .lcons n (.file m) (flatListing r)

/-- Failure diagnostics: the warning for a non-callable default export and
the error for a throwing `import`. -/
def isFailureEvent : LogEvent → Bool
  | .invalidExport _ => true
  | .loadError _ => true
  | _ => false

/-- Route paths the loader registers for a candidate sequence: each
callable plugin contributes `determineRoutePath` of its full path (whose
second argument is irrelevant), others contribute nothing. -/
def registeredRoutes (cands : List (String × ModuleContent)) : List String :=
  cands.filterMap
    (fun c => if c.2 == ModuleContent.plugin then some (determineRoutePath c.1 "") else none)

/-- Strict byte-wise lexicographic order on character lists. -/
def lexLt : List Char → List Char → Bool
  | [], [] => false
  | [], _ :: _ => true
  | _ :: _, [] => false
  | a :: as, b :: bs =>
    if a.toNat < b.toNat then true
    else if a.toNat == b.toNat then lexLt as bs else false

/-- Byte-wise lexicographic order (non-strict) on strings. -/
def nameLe (a b : String) : Bool :=
  lexLt a.data b.data || a == b

/-- The list of names is in byte-wise lexical order. -/
def sortedNames : List String → Bool
  | [] => true
  | [_] => true
  | a :: b :: r => nameLe a b && sortedNames (b :: r)

/-! Auxiliary lemmas shared by the claim theorems. -/

theorem determineRoutePath_unfold (p b : String) :
    determineRoutePath p b = routePathOfRel (stripExt (stripRouteBase p)) := rfl

theorem mappedSegments_append (xs ys : List String) :
    mappedSegments (xs ++ ys) = mappedSegments xs ++ mappedSegments ys := by
  simp [mappedSegments]

theorem routePathOfSegs_congr {a c : List String}
    (h : mappedSegments a = mappedSegments c) :
    routePathOfSegs a = routePathOfSegs c := by
  simp [routePathOfSegs, h]

theorem mappedSegments_elide (mid : String) (h : transformSegment mid = "")
    (pre post : List String) :
    mappedSegments (pre ++ mid :: post) = mappedSegments (pre ++ post) := by
  simp [mappedSegments, List.filter_cons, h]

theorem transformSegment_ne_index (s : String) : transformSegment s ≠ "index" := by
  unfold transformSegment
  by_cases h1 : isDynamicSeg s = true
  · simp only [h1, if_true]
    intro hEq
    have h2 : ':' :: (innerText s).data = ['i', 'n', 'd', 'e', 'x'] :=
      congrArg String.data hEq
    injection h2 with h3 _
    exact absurd h3 (by decide)
  · simp only [h1, if_false, Bool.false_eq_true]
    by_cases h2 : (s == "index") = true
    · simp only [h2, if_true]
      intro hEq
      have h3 : ([] : List Char) = ['i', 'n', 'd', 'e', 'x'] := congrArg String.data hEq
      exact absurd h3 (by decide)
    · simp only [h2, if_false, Bool.false_eq_true]
      intro hEq
      exact h2 (by simp [hEq])

theorem mem_mappedSegments_ne_index (segs : List String) (s : String)
    (hs : s ∈ mappedSegments segs) : s ≠ "index" := by
  unfold mappedSegments at hs
  obtain ⟨a, _, rfl⟩ := List.mem_map.mp (List.mem_filter.mp hs).1
  exact transformSegment_ne_index a

theorem headIs_slash_routePathOfSegs (segs : List String) :
    headIs '/' (routePathOfSegs segs) = true := by
  unfold routePathOfSegs
  by_cases h : headIs '/' (String.intercalate "/" (mappedSegments segs)) = true
  · simp only [h, if_true]
  · simp only [h, if_false, Bool.false_eq_true]
    have h2 : ("/" ++ String.intercalate "/" (mappedSegments segs)).data
        = '/' :: (String.intercalate "/" (mappedSegments segs)).data := rfl
    simp [headIs, h2]

theorem segmentParamNames_eq_filter (l : List String) :
    segmentParamNames l = (l.filter isDynamicSeg).map innerText := by
  induction l with
  | nil => rfl
  | cons a r ih =>
    by_cases h : isDynamicSeg a = true <;>
      simp [segmentParamNames, List.filter_cons, h, ih]

theorem length_filter_add_length_filter_not {α : Type} (p : α → Bool) (l : List α) :
    (l.filter p).length + (l.filter (fun a => !p a)).length = l.length := by
  induction l with
  | nil => rfl
  | cons a r ih =>
    by_cases h : p a = true <;> simp [List.filter_cons, h] <;> omega

theorem processEntries_flat (d b : String) (files : List (String × ModuleContent))
    (hext : ∀ f ∈ files, isCandidateName f.1 = true) :
    (processEntries d b (flatListing files)).registry.length
      = (files.filter (fun f => f.2 == ModuleContent.plugin)).length
    ∧ ((processEntries d b (flatListing files)).events.filter isFailureEvent).length
      = (files.filter (fun f => !(f.2 == ModuleContent.plugin))).length := by
  induction files with
  | nil => simp [flatListing, processEntries]
  | cons f r ih =>
    obtain ⟨n, m⟩ := f
    have hn : isCandidateName n = true := hext (n, m) (by simp)
    have ihr := ih (fun g hg => hext g (by simp [hg]))
    cases m <;>
      simp [flatListing, processEntries, hn, List.filter_cons, isFailureEvent,
        ihr.1, ihr.2]

theorem processEntries_registry_char : ∀ (d b : String) (es : FsListing),
    (processEntries d b es).registry = registeredRoutes (candidatesL d es)
  | d, b, .lnil => by simp [processEntries, candidatesL, registeredRoutes]
  | d, b, .lcons name t rest => by
    have ihRest := processEntries_registry_char d b rest
    cases t with
    | file mod =>
      by_cases hc : isCandidateName name = true
      · cases mod <;>
          simp [processEntries, candidatesL, registeredRoutes, hc,
            List.filterMap_cons, determineRoutePath_unfold, ihRest]
      · cases mod <;>
          simp [processEntries, candidatesL, registeredRoutes, hc, ihRest]
    | dirUnavailable =>
      simp [processEntries, candidatesL, registeredRoutes, ihRest]
    | dirOf es2 =>
      have ihSub := processEntries_registry_char (joinPath d name) (joinPath b name) es2
      simp [processEntries, candidatesL, registeredRoutes, List.filterMap_append,
        ihSub, ihRest]

theorem loadDir_registry_char (d b : String) (t : FsTree) :
    (loadDir d b t).registry = registeredRoutes (candidatesT d t) := by
  cases t <;>
    simp [loadDir, candidatesT, registeredRoutes, processEntries_registry_char]

theorem candidatesL_flat (d : String) (files : List (String × ModuleContent)) :
    (candidatesL d (flatListing files)).map Prod.fst
      = (files.filter (fun f => isCandidateName f.1)).map (fun f => joinPath d f.1) := by
  induction files with
  | nil => rfl
  | cons f r ih =>
    obtain ⟨n, m⟩ := f
    by_cases hc : isCandidateName n = true <;>
      simp [flatListing, candidatesL, List.filter_cons, hc, ih]

/-! Claim theorems. -/

/-- C1 counterexample: with the root routes directory unavailable
(`readdir` throws), discovery does NOT raise to its caller — it resolves
normally with an empty registry and a single logged directory error, so
the claim that it fails fatally and aborts is false on the code. -/
theorem C1_missing_root_counterexample :
    loadRoutes "/app" FsTree.dirUnavailable
      = Except.ok ⟨[], [LogEvent.dirError "/app/src/routes"]⟩
    ∧ (loadRoutes "/app" FsTree.dirUnavailable).isOk = true :=
  ⟨rfl, rfl⟩

/-- C1 (amended): if the root routes directory does not exist or cannot be
opened, discovery performs zero route registrations, logs one directory
error, and completes normally — the failure is swallowed by the walker's
own catch block and never propagates to the caller of `loadRoutes`. -/
theorem C1_amended_nonfatal (cwd : String) :
    loadRoutes cwd FsTree.dirUnavailable
      = Except.ok ⟨[], [LogEvent.dirError (routesDirPath cwd)]⟩ :=
  rfl

/-- C2 counterexample: two files (`x.ts` and `x.js`) that resolve to the
same route pattern are BOTH registered, no error of any kind is raised,
and discovery completes normally — the claim that the second registration
is rejected with a dedicated error that halts startup is false on the
code. -/
theorem C2_duplicate_counterexample :
    loadRoutes "/app"
      (FsTree.dirOf (.lcons "x.ts" (.file .plugin)
        (.lcons "x.js" (.file .plugin) .lnil)))
      = Except.ok ⟨["/app/src/routes/x", "/app/src/routes/x"],
          [.loaded "/app/src/routes/x" "/app/src/routes/x.ts",
           .loaded "/app/src/routes/x" "/app/src/routes/x.js"]⟩ :=
  rfl

/-- C2 (amended): the registration step performs no duplicate detection:
any two candidate files are both registered, in walk order, even when they
resolve to the same route pattern; discovery never raises for a collision
and the result (duplicates included) is handed on normally. -/
theorem C2_amended_both_registered (d b n1 n2 : String)
    (h1 : isCandidateName n1 = true) (h2 : isCandidateName n2 = true) :
    (processEntries d b (.lcons n1 (.file .plugin)
        (.lcons n2 (.file .plugin) .lnil))).registry
      = [determineRoutePath (joinPath d n1) b,
         determineRoutePath (joinPath d n2) b] := by
  simp [processEntries, h1, h2]

/-- Witness for C2 (amended), at the colliding pair `x.ts` / `x.js`. -/
theorem C2_amended_both_registered_witness :
    isCandidateName "x.ts" = true ∧ isCandidateName "x.js" = true
    ∧ (processEntries "/app/src/routes" "" (.lcons "x.ts" (.file .plugin)
        (.lcons "x.js" (.file .plugin) .lnil))).registry
      = [determineRoutePath (joinPath "/app/src/routes" "x.ts") "",
         determineRoutePath (joinPath "/app/src/routes" "x.js") ""] :=
  ⟨by decide, by decide,
   C2_amended_both_registered "/app/src/routes" "" "x.ts" "x.js"
     (by decide) (by decide)⟩

/-- C3: in a directory of N candidate files of which exactly one is bad
(invalid default export or a throwing import), discovery completes
normally (the result is returned, never an exception), the N−1 valid
files are all registered, and exactly one failure diagnostic is
reported. -/
theorem C3_one_bad_file_isolated (cwd : String)
    (files : List (String × ModuleContent))
    (hext : ∀ f ∈ files, isCandidateName f.1 = true)
    (hbad : (files.filter (fun f => !(f.2 == ModuleContent.plugin))).length = 1) :
    loadRoutes cwd (FsTree.dirOf (flatListing files))
      = Except.ok (processEntries (routesDirPath cwd) "" (flatListing files))
    ∧ (processEntries (routesDirPath cwd) "" (flatListing files)).registry.length
        = files.length - 1
    ∧ ((processEntries (routesDirPath cwd) "" (flatListing files)).events.filter
        isFailureEvent).length = 1 := by
  have h := processEntries_flat (routesDirPath cwd) "" files hext
  refine ⟨rfl, ?_, ?_⟩
  · have hsum := length_filter_add_length_filter_not
      (fun f => f.2 == ModuleContent.plugin) files
    rw [h.1]
    omega
  · rw [h.2, hbad]

/-- Witness for C3 at three files, the middle one with an invalid
export. -/
theorem C3_one_bad_file_isolated_witness :
    (∀ f ∈ ([("a.ts", ModuleContent.plugin), ("b.ts", ModuleContent.invalidExport),
        ("c.ts", ModuleContent.plugin)] : List (String × ModuleContent)),
      isCandidateName f.1 = true)
    ∧ (([("a.ts", ModuleContent.plugin), ("b.ts", ModuleContent.invalidExport),
        ("c.ts", ModuleContent.plugin)] : List (String × ModuleContent)).filter
          (fun f => !(f.2 == ModuleContent.plugin))).length = 1
    ∧ (loadRoutes "/app" (FsTree.dirOf (flatListing
          [("a.ts", ModuleContent.plugin), ("b.ts", ModuleContent.invalidExport),
           ("c.ts", ModuleContent.plugin)]))
        = Except.ok (processEntries (routesDirPath "/app") "" (flatListing
            [("a.ts", ModuleContent.plugin), ("b.ts", ModuleContent.invalidExport),
             ("c.ts", ModuleContent.plugin)]))
      ∧ (processEntries (routesDirPath "/app") "" (flatListing
            [("a.ts", ModuleContent.plugin), ("b.ts", ModuleContent.invalidExport),
             ("c.ts", ModuleContent.plugin)])).registry.length
          = ([("a.ts", ModuleContent.plugin), ("b.ts", ModuleContent.invalidExport),
              ("c.ts", ModuleContent.plugin)] : List (String × ModuleContent)).length - 1
      ∧ ((processEntries (routesDirPath "/app") "" (flatListing
            [("a.ts", ModuleContent.plugin), ("b.ts", ModuleContent.invalidExport),
             ("c.ts", ModuleContent.plugin)])).events.filter
          isFailureEvent).length = 1) :=
  ⟨by decide, by decide,
   C3_one_bad_file_isolated "/app" _ (by decide) (by decide)⟩

/-- C4: the transformer maps the spec's table exactly: `users/index` to
`/users`; `users/[id]` to `/users/:id` with dynamic parameter `id`;
`a/b/[x]/[y]` to `/a/b/:x/:y`; root-level `index` to `/`; and in general
an `index` segment at any depth, like an empty segment, is elided from
the joined result. -/
theorem C4_transform_table :
    determineRoutePath "users/index" "" = "/users"
    ∧ determineRoutePath "users/[id]" "" = "/users/:id"
    ∧ dynamicParamNames "users/[id]" = ["id"]
    ∧ determineRoutePath "a/b/[x]/[y]" "" = "/a/b/:x/:y"
    ∧ determineRoutePath "index" "" = "/"
    ∧ (∀ pre post : List String,
        routePathOfSegs (pre ++ "index" :: post) = routePathOfSegs (pre ++ post))
    ∧ (∀ pre post : List String,
        routePathOfSegs (pre ++ "" :: post) = routePathOfSegs (pre ++ post)) :=
  ⟨by decide, by decide, by decide, by decide, by decide,
   fun pre post => routePathOfSegs_congr (mappedSegments_elide "index" (by decide) pre post),
   fun pre post => routePathOfSegs_congr (mappedSegments_elide "" (by decide) pre post)⟩

/-- C5 counterexample: for the input `users/[]` the transformer does NOT
report a failure — it totally returns the pattern `/users/:` whose last
segment is the blank-name parameter `:`, so the claim is false on the
code. -/
theorem C5_blank_param_counterexample :
    determineRoutePath "users/[]" "" = "/users/:"
    ∧ ":" ∈ mappedSegments (splitSlash "users/[]")
    ∧ transformSegment "[]" = ":" := by
  decide

/-- C5 (amended): a bracket segment with an empty name (`[]`) is accepted,
not rejected: it is transformed into the blank-name parameter segment `:`
which survives the empty-segment filter and appears in the produced
pattern at its position; no failure is reported (the transformer is a
total function). -/
theorem C5_amended_blank_param (pre post : List String) :
    mappedSegments (pre ++ "[]" :: post)
      = mappedSegments pre ++ ":" :: mappedSegments post := by
  have h1 : transformSegment "[]" = ":" := by decide
  have h2 : ((":" : String) != "") = true := by decide
  simp [mappedSegments, List.filter_cons, h1, h2]

/-- C6 counterexample: a directory whose `readdir` listing is
`[b.ts, a.ts]` is enumerated in exactly that order, which is not
byte-wise lexical order, so the claim that the walk enumerates candidates
in lexical order at every level is false on the code (the code never
sorts directory entries). -/
theorem C6_lexical_order_counterexample :
    (candidatesT "d" (FsTree.dirOf (.lcons "b.ts" (.file .plugin)
        (.lcons "a.ts" (.file .plugin) .lnil)))).map Prod.fst = ["d/b.ts", "d/a.ts"]
    ∧ sortedNames ((candidatesT "d" (FsTree.dirOf (.lcons "b.ts" (.file .plugin)
        (.lcons "a.ts" (.file .plugin) .lnil)))).map Prod.fst) = false
    ∧ sortedNames ["d/a.ts", "d/b.ts"] = true := by
  decide

/-- C6 (amended): the walk enumerates candidates depth-first in exactly
the order the directory listing (`readdir`) returns them — order is
preserved, not sorted — so discovery is deterministic relative to the
listing order (identical listings give identical sequences), but lexical
order holds only if `readdir` itself returns lexical order. -/
theorem C6_walk_in_readdir_order (d : String)
    (files : List (String × ModuleContent)) :
    (candidatesL d (flatListing files)).map Prod.fst
      = (files.filter (fun f => isCandidateName f.1)).map (fun f => joinPath d f.1) :=
  candidatesL_flat d files

/-- C7: for every input path, the produced pattern starts with `/`, none
of its joined segments is the literal `index`, and the dynamic parameter
names are exactly the interiors of the bracket-delimited source segments,
one-to-one and in left-to-right order. -/
theorem C7_route_pattern_invariant (rel : String) :
    headIs '/' (routePathOfRel rel) = true
    ∧ "index" ∉ mappedSegments (splitSlash rel)
    ∧ segmentParamNames (splitSlash rel)
        = ((splitSlash rel).filter isDynamicSeg).map innerText :=
  ⟨headIs_slash_routePathOfSegs _,
   fun hmem => mem_mappedSegments_ne_index _ _ hmem rfl,
   segmentParamNames_eq_filter _⟩

/-- Witness for C7 at the concrete path `users/[id]`. -/
theorem C7_route_pattern_invariant_witness :
    headIs '/' (routePathOfRel "users/[id]") = true
    ∧ "index" ∉ mappedSegments (splitSlash "users/[id]")
    ∧ segmentParamNames (splitSlash "users/[id]")
        = ((splitSlash "users/[id]").filter isDynamicSeg).map innerText :=
  C7_route_pattern_invariant "users/[id]"

/-- C8: processing is sequential and order-preserving: the registered
route paths are exactly the walk-order candidate sequence filtered to
loadable plugins and mapped through the path transformer, so no two
candidates' registrations occur out of walk order. -/
theorem C8_sequential_registration_order (d b : String) (t : FsTree) :
    (loadDir d b t).registry = registeredRoutes (candidatesT d t) :=
  loadDir_registry_char d b t

/-- C9: `determineRoutePath` is a total function (it never throws) and its
result depends only on its first argument: the `basePath` parameter is
ignored. -/
theorem C9_total_and_basePath_independent :
    ∀ (filePath b1 b2 : String),
      determineRoutePath filePath b1 = determineRoutePath filePath b2 :=
  fun _ _ _ => rfl

/-- C10: a segment is classified as dynamic exactly when its first
character is `[` and its last character is `]`, the parameter name is the
raw interior text, bracket matching inside is never checked: `[x` and
`x]` are kept literally while `[[x]]` yields `:[x]`. -/
theorem C10_first_last_char_classification :
    (∀ seg : String, transformSegment seg =
        if isDynamicSeg seg then ":" ++ innerText seg
        else if seg == "index" then "" else seg)
    ∧ (∀ seg : String, isDynamicSeg seg = (headIs '[' seg && lastIs ']' seg))
    ∧ determineRoutePath "a/[x" "" = "/a/[x"
    ∧ determineRoutePath "a/x]" "" = "/a/x]"
    ∧ determineRoutePath "a/[[x]]" "" = "/a/:[x]"
    ∧ dynamicParamNames "a/[[x]]" = ["[x]"]
    ∧ isDynamicSeg "[x" = false ∧ isDynamicSeg "x]" = false :=
  ⟨fun _ => rfl, fun _ => rfl, by decide, by decide, by decide, by decide,
   by decide, by decide⟩
